import Mathlib

/-!
Verification of the AST-based linter in `sigopt_tools/python_lint.py`.

The Python syntax tree (`ast` module) is shallowly embedded as the inductive
type `Node` below.  Only the node kinds and fields that the linter's rules
inspect are modelled; auxiliary AST objects that no rule looks at and that
carry no source position used by the engine (`ast.arguments`, `ast.alias`,
`ast.keyword`, operator objects, comprehension clauses, `returns`
annotations, default expressions) are carried as plain data rather than as
tree nodes.  Every statement/expression node of the Python `ast` carries
`lineno`/`col_offset`; the module root does not, which `Node.lineno?`
reflects.

Fallible Python code (assertions, attribute errors) is embedded with
`Except String`; a `.error` value models an exception escaping the rule.
-/

/-- Embeds `ast.alias` as used by `ForbidImportTestSuiteRule` and
`NoImportLibsigoptComputeRule`: an imported name with an optional `as` name. -/
structure PyAlias where
  name : String
  asname : Option String
deriving DecidableEq, Repr

/-- Embeds `ast.arguments`: the parameter list of a function definition, as read by
`SafeRecursiveRule` (`args`, `vararg`, `kwonlyargs`, `kwarg`).  Parameter
default expressions are not read by any rule and are omitted. -/
structure PyArguments where
  posonlyargs : List String
  args : List String
  vararg : Option String
  kwonlyargs : List String
  kwarg : Option String
deriving DecidableEq, Repr

/-- Binary operator kinds (`ast.operator`).  Only `Add` is ever inspected
(by `SafeIteratorRule` and nothing else); the others witness non-`Add`. -/
inductive PyOperator where
  | Add | Sub | Mult | Div | Mod | Pow
deriving DecidableEq, Repr

/-- Comparison operator kinds (`ast.cmpop`), inspected by `SetComparisonRule`. -/
inductive PyCmpOp where
  | Lt | LtE | Gt | GtE | Eq | NotEq | Is | IsNot | In | NotIn
deriving DecidableEq, Repr

/-- One Python syntax-tree node.  Constructors mirror the `ast` classes the
rules dispatch on; every constructor except the `Module` root carries its
`lineno` and `col_offset` (as in CPython, where all statements and
expressions are positioned and the module is not). -/
inductive Node where
  | Module (body : List Node)
  | FunctionDef (name : String) (args : PyArguments) (body : List Node)
      (decorator_list : List Node) (lineno col_offset : Nat)
  | AsyncFunctionDef (name : String) (args : PyArguments) (body : List Node)
      (decorator_list : List Node) (lineno col_offset : Nat)
  | ClassDef (name : String) (bases : List Node) (body : List Node) (lineno col_offset : Nat)
  | Return (value : Option Node) (lineno col_offset : Nat)
  | Assign (targets : List Node) (value : Node) (lineno col_offset : Nat)
  | AugAssign (target : Node) (op : PyOperator) (value : Node) (lineno col_offset : Nat)
  | Expr (value : Node) (lineno col_offset : Nat)
  | Import (names : List PyAlias) (lineno col_offset : Nat)
  | ImportFrom (module : Option String) (names : List PyAlias) (level : Nat)
      (lineno col_offset : Nat)
  | Call (func : Node) (args : List Node) (keywords : List (Option String × Node))
      (lineno col_offset : Nat)
  | Attribute (value : Node) (attr : String) (lineno col_offset : Nat)
  | Name (id : String) (lineno col_offset : Nat)
  | BinOp (left : Node) (op : PyOperator) (right : Node) (lineno col_offset : Nat)
  | Compare (left : Node) (ops : List PyCmpOp) (comparators : List Node) (lineno col_offset : Nat)
  | Yield (value : Option Node) (lineno col_offset : Nat)
  | YieldFrom (value : Node) (lineno col_offset : Nat)
  | Tuple (elts : List Node) (lineno col_offset : Nat)
  | Str (s : String) (lineno col_offset : Nat)
  | JoinedStr (values : List Node) (lineno col_offset : Nat)
  | FormattedValue (value : Node) (lineno col_offset : Nat)
  | SetComp (elt : Node) (lineno col_offset : Nat)
  | GeneratorExp (elt : Node) (lineno col_offset : Nat)
  | ListComp (elt : Node) (lineno col_offset : Nat)
  | Subscript (value : Node) (slice : Node) (lineno col_offset : Nat)
  | Constant (lineno col_offset : Nat)

/-- Embeds `hasattr(node, "lineno")` / `node.lineno`: every node except the module
root has a source line. -/
def Node.lineno? : Node → Option Nat
  | .Module _ => none
  | .FunctionDef _ _ _ _ l _ => some l
  | .AsyncFunctionDef _ _ _ _ l _ => some l
  | .ClassDef _ _ _ l _ => some l
  | .Return _ l _ => some l
  | .Assign _ _ l _ => some l
  | .AugAssign _ _ _ l _ => some l
  | .Expr _ l _ => some l
  | .Import _ l _ => some l
  | .ImportFrom _ _ _ l _ => some l
  | .Call _ _ _ l _ => some l
  | .Attribute _ _ l _ => some l
  | .Name _ l _ => some l
  | .BinOp _ _ _ l _ => some l
  | .Compare _ _ _ l _ => some l
  | .Yield _ l _ => some l
  | .YieldFrom _ l _ => some l
  | .Tuple _ l _ => some l
  | .Str _ l _ => some l
  | .JoinedStr _ l _ => some l
  | .FormattedValue _ l _ => some l
  | .SetComp _ l _ => some l
  | .GeneratorExp _ l _ => some l
  | .ListComp _ l _ => some l
  | .Subscript _ _ l _ => some l
  | .Constant l _ => some l

/-- Embeds `node.col_offset`, `none` for the module root. -/
def Node.col_offset? : Node → Option Nat
  | .Module _ => none
  | .FunctionDef _ _ _ _ _ c => some c
  | .AsyncFunctionDef _ _ _ _ _ c => some c
  | .ClassDef _ _ _ _ c => some c
  | .Return _ _ c => some c
  | .Assign _ _ _ c => some c
  | .AugAssign _ _ _ _ c => some c
  | .Expr _ _ c => some c
  | .Import _ _ c => some c
  | .ImportFrom _ _ _ _ c => some c
  | .Call _ _ _ _ c => some c
  | .Attribute _ _ _ c => some c
  | .Name _ _ c => some c
  | .BinOp _ _ _ _ c => some c
  | .Compare _ _ _ _ c => some c
  | .Yield _ _ c => some c
  | .YieldFrom _ _ c => some c
  | .Tuple _ _ c => some c
  | .Str _ _ c => some c
  | .JoinedStr _ _ c => some c
  | .FormattedValue _ _ c => some c
  | .SetComp _ _ c => some c
  | .GeneratorExp _ _ c => some c
  | .ListComp _ _ c => some c
  | .Subscript _ _ _ c => some c
  | .Constant _ c => some c

mutual
/-- Embeds `ast.walk` together with the parent annotation of `get_problems`:
produces every node of the tree paired with its chain of ancestors
(innermost first), the information the parent back-references give each
node.  `ast.walk` visits every node exactly once; per the engine contract
the visit order only feeds the final stable sort, and we use the natural
structural (pre-)order. -/
def walkNode : Node → List Node → List (Node × List Node)
  | n@(.Module body), anc => (n, anc) :: walkList body (n :: anc)
  | n@(.FunctionDef _ _ body decs _ _), anc =>
      (n, anc) :: (walkList body (n :: anc) ++ walkList decs (n :: anc))
  | n@(.AsyncFunctionDef _ _ body decs _ _), anc =>
      (n, anc) :: (walkList body (n :: anc) ++ walkList decs (n :: anc))
  | n@(.ClassDef _ bases body _ _), anc =>
      (n, anc) :: (walkList bases (n :: anc) ++ walkList body (n :: anc))
  | n@(.Return value _ _), anc => (n, anc) :: walkOpt value (n :: anc)
  | n@(.Assign targets value _ _), anc =>
      (n, anc) :: (walkList targets (n :: anc) ++ walkNode value (n :: anc))
  | n@(.AugAssign target _ value _ _), anc =>
      (n, anc) :: (walkNode target (n :: anc) ++ walkNode value (n :: anc))
  | n@(.Expr value _ _), anc => (n, anc) :: walkNode value (n :: anc)
  | n@(.Import _ _ _), anc => [(n, anc)]
  | n@(.ImportFrom _ _ _ _ _), anc => [(n, anc)]
  | n@(.Call func args kws _ _), anc =>
      (n, anc) :: (walkNode func (n :: anc) ++ walkList args (n :: anc)
        ++ walkKeywords kws (n :: anc))
  | n@(.Attribute value _ _ _), anc => (n, anc) :: walkNode value (n :: anc)
  | n@(.Name _ _ _), anc => [(n, anc)]
  | n@(.BinOp left _ right _ _), anc =>
      (n, anc) :: (walkNode left (n :: anc) ++ walkNode right (n :: anc))
  | n@(.Compare left _ comparators _ _), anc =>
      (n, anc) :: (walkNode left (n :: anc) ++ walkList comparators (n :: anc))
  | n@(.Yield value _ _), anc => (n, anc) :: walkOpt value (n :: anc)
  | n@(.YieldFrom value _ _), anc => (n, anc) :: walkNode value (n :: anc)
  | n@(.Tuple elts _ _), anc => (n, anc) :: walkList elts (n :: anc)
  | n@(.Str _ _ _), anc => [(n, anc)]
  | n@(.JoinedStr values _ _), anc => (n, anc) :: walkList values (n :: anc)
  | n@(.FormattedValue value _ _), anc => (n, anc) :: walkNode value (n :: anc)
  | n@(.SetComp elt _ _), anc => (n, anc) :: walkNode elt (n :: anc)
  | n@(.GeneratorExp elt _ _), anc => (n, anc) :: walkNode elt (n :: anc)
  | n@(.ListComp elt _ _), anc => (n, anc) :: walkNode elt (n :: anc)
  | n@(.Subscript value slice _ _), anc =>
      (n, anc) :: (walkNode value (n :: anc) ++ walkNode slice (n :: anc))
  | n@(.Constant _ _), anc => [(n, anc)]

/-- Walk every node of a list of sibling subtrees. -/
def walkList : List Node → List Node → List (Node × List Node)
  | [], _ => []
  | x :: xs, anc => walkNode x anc ++ walkList xs anc

/-- Walk an optional subtree (an absent child contributes nothing). -/
def walkOpt : Option Node → List Node → List (Node × List Node)
  | none, _ => []
  | some x, anc => walkNode x anc

/-- Walk the value subtrees of a `keywords` list of a call node. -/
def walkKeywords : List (Option String × Node) → List Node → List (Node × List Node)
  | [], _ => []
  | (_, v) :: xs, anc => walkNode v anc ++ walkKeywords xs anc
end

/-- Embeds `isinstance(node, (ast.FunctionDef, ast.AsyncFunctionDef))`. -/
def is_function_def : Node → Bool
  | .FunctionDef _ _ _ _ _ _ => true
  | .AsyncFunctionDef _ _ _ _ _ _ => true
  | _ => false

/-- Embeds `find_parent_function`: walk the parent chain upward (starting at the
node itself) until a function definition is found. -/
def find_parent_function (n : Node) (anc : List Node) : Option Node :=
  if is_function_def n then some n
  else
    match anc with
    | [] => none
    | p :: rest => find_parent_function p rest

/-! ## Python string primitives

Python's `in`, `find`, `split`, `strip` and `startswith` on `str` are
embedded as structurally recursive functions over the character list of a
`String`, keeping them computable inside the kernel. -/

/-- Embeds `pat in s`: substring containment. -/
def listIsInfix (pat : List Char) : List Char → Bool
  | [] => pat.isEmpty
  | c :: rest => pat.isPrefixOf (c :: rest) || listIsInfix pat rest

/-- Embeds `pat in s` on strings. -/
def containsSub (s pat : String) : Bool := listIsInfix pat.data s.data

/-- Embeds `s[s.find(pat) + len(pat):]` for an occurring `pat`: everything after
the first occurrence (later occurrences are kept intact). -/
def afterFirstList (pat : List Char) (s : List Char) : List Char :=
  if pat.isPrefixOf s then s.drop pat.length
  else
    match s with
    | [] => []
    | _ :: rest => afterFirstList pat rest

/-- Lifts `afterFirstList` to strings. -/
def afterFirst (s pat : String) : String := ⟨afterFirstList pat.data s.data⟩

/-- Embeds `s.split(",")`. -/
def splitCommaAux : List Char → List Char → List (List Char)
  | [], acc => [acc]
  | c :: rest, acc =>
    if c == ',' then acc :: splitCommaAux rest [] else splitCommaAux rest (acc ++ [c])

/-- Embeds `s.split(",")` on strings. -/
def splitComma (s : String) : List String := (splitCommaAux s.data []).map fun l => ⟨l⟩

/-- ASCII whitespace, as stripped by `str.strip()`. -/
def pyIsSpace (c : Char) : Bool :=
  c == ' ' || c == '\t' || c == '\n' || c == '\r' || c == '\x0b' || c == '\x0c'

/-- Drop leading whitespace characters. -/
def dropSpaces : List Char → List Char
  | [] => []
  | c :: rest => if pyIsSpace c then dropSpaces rest else c :: rest

/-- Embeds `s.strip()`. -/
def pyStrip (s : String) : String := ⟨dropSpaces ((dropSpaces s.data.reverse).reverse)⟩

/-- Embeds `s.startswith(pat)`. -/
def strStartsWith (s pat : String) : Bool := pat.data.isPrefixOf s.data

/-! ## The rules

Each `check_node` mirrors one `LintNodeRule` subclass, returning
`.ok (some message)` for a finding, `.ok none` for no finding, and
`.error e` when the Python method would raise (assertion failure or
attribute error). -/

/-- Embeds `ProhibitedMethodsRule.is_prohibited_method_call`: a call whose callee is
an attribute access with a prohibited attribute name. -/
def is_prohibited_method_call (prohibited_methods : List String) : Node → Bool
  | .Call (.Attribute _ attr _ _) _ _ _ _ => prohibited_methods.contains attr
  | _ => false

/-- Embeds `AvoidDatetimeNowRule.check_node`. -/
def AvoidDatetimeNowRule.check_node (node : Node) (_anc : List Node) :
    Except String (Option String) :=
  match node with
  | .Call (.Attribute value attr _ _) _ _ _ _ =>
    if is_prohibited_method_call ["now", "utcnow"] node then
      match value with
      | .Attribute _ vattr _ _ =>
        if vattr == "dt" || vattr == "datetime" then
          .ok (some s!"Prefer `current_datetime` to `datetime.{attr}` to ensure consistent use of UTC timezone")
        else .ok none
      | _ => .ok none
    else .ok none
  | _ => .ok none

/-- Embeds `Node.functionName?`: the `name` attribute of a function-definition node. -/
def Node.functionName? : Node → Option String
  | .FunctionDef name _ _ _ _ _ => some name
  | .AsyncFunctionDef name _ _ _ _ _ => some name
  | _ => none

/-- Embeds `Node.functionArgs?`: the `args` attribute of a function-definition node. -/
def Node.functionArgs? : Node → Option PyArguments
  | .FunctionDef _ args _ _ _ _ => some args
  | .AsyncFunctionDef _ args _ _ _ _ => some args
  | _ => none

/-- Embeds `Node.decoratorList`: the `decorator_list` attribute of a
function-definition node (only ever read on function nodes). -/
def Node.decoratorList : Node → List Node
  | .FunctionDef _ _ _ decs _ _ => decs
  | .AsyncFunctionDef _ _ _ decs _ _ => decs
  | _ => []

/-- Embeds `SafeRecursiveRule.is_recursive_call`: the call's callee is a bare name
equal to the name of the enclosing function (truthiness of the Python
`parent_function and parent_function.name == node.func.id`). -/
def is_recursive_call (node : Node) (parent_function : Option Node) : Bool :=
  match node with
  | .Call (.Name id _ _) _ _ _ _ =>
    match parent_function with
    | some pf => pf.functionName? == some id
    | none => false
  | _ => false

/-- Embeds `SafeRecursiveRule.check_node`.  The three `assert not ...` statements of
the source become `.error` results. -/
def SafeRecursiveRule.check_node (node : Node) (anc : List Node) :
    Except String (Option String) :=
  match node with
  | .Call _ args keywords _ _ =>
    let parent_function := find_parent_function node anc
    if is_recursive_call node parent_function then
      match parent_function.bind Node.functionArgs? with
      | some defined_args =>
        if defined_args.vararg.isSome then
          .error "Linting for recursive calls with *args is not supported"
        else if defined_args.kwarg.isSome then
          .error "Linting for recursive calls with **kwargs is not supported"
        else if !defined_args.kwonlyargs.isEmpty then
          .error "Linting for recursive calls with keyword-only args is not supported"
        else if defined_args.args.length != args.length + keywords.length then
          .ok (some "Recursive call appears to be missing arguments. Specify all arguments for recursive calls.")
        else .ok none
      | none => .ok none
    else .ok none
  | _ => .ok none

/-- Embeds `SafeIteratorRule.is_iterator`: a direct call to one of the prohibited
iterator builtins. -/
def SafeIteratorRule.is_iterator : Node → Bool
  | .Call (.Name id _ _) _ _ _ _ => ["range", "zip", "map", "filter"].contains id
  | _ => false

/-- Embeds `SafeIteratorRule.check_node`. -/
def SafeIteratorRule.check_node (node : Node) (_anc : List Node) :
    Except String (Option String) :=
  match node with
  | .Return (some (.Call (.Name id _ _) cargs ckws cl cc)) _ _ =>
    if SafeIteratorRule.is_iterator (.Call (.Name id cl cc) cargs ckws cl cc) then
      .ok (some (s!"returning `{id}` is not allowed, suggest using `yield from` syntax "
        ++ "or returning `zigopt.common.lists.safe_iterator`"))
    else .ok none
  | .BinOp left op right _ _ =>
    if op == .Add
        && (SafeIteratorRule.is_iterator left || SafeIteratorRule.is_iterator right) then
      .ok (some "adding iterators is not allowed")
    else .ok none
  | _ => .ok none

/-- Embeds `ProtobufMethodsRule.check_node`. -/
def ProtobufMethodsRule.check_node (node : Node) (_anc : List Node) :
    Except String (Option String) :=
  match node with
  | .Call (.Attribute _ attr _ _) _ _ _ _ =>
    if is_prohibited_method_call ["MergeFrom", "CopyFrom"] node then
      .ok (some s!"Do not call `{attr}` on protobufs - prefer the safer `{attr}` in zigopt.protobuf.lib`")
    else .ok none
  | _ => .ok none

/-- The decorator names accepted by `SafeYieldRule.missing_decorator`. -/
def safe_yield_decorators : List String :=
  ["generator_to_list", "generator_to_dict", "generator_to_safe_iterator",
   "unsafe_generator", "contextmanager", "fixture", "hookimpl"]

/-- Embeds `SafeYieldRule.get_decorator_name`: the simple name underlying a
decorator expression.  A bare name yields its id, an attribute access its
attribute, and a call recurses into its callee; any other shape fails the
source's `assert isinstance(node, ast.Call)`. -/
def SafeYieldRule.get_decorator_name : Node → Except String String
  | .Attribute _ attr _ _ => .ok attr
  | .Name id _ _ => .ok id
  | .Call func _ _ _ _ => SafeYieldRule.get_decorator_name func
  | _ => .error "AssertionError: assert isinstance(node, ast.Call)"

/-- Embeds `protects_iterator` applied across a decorator list with Python's
short-circuiting `any`. -/
def SafeYieldRule.any_protects : List Node → Except String Bool
  | [] => .ok false
  | d :: ds =>
    match SafeYieldRule.get_decorator_name d with
    | .error e => .error e
    | .ok nm =>
      if safe_yield_decorators.contains nm then .ok true
      else SafeYieldRule.any_protects ds

/-- Embeds `SafeYieldRule.missing_decorator`: no decorator in the enclosing
function's decorator list is one of the safe ones. -/
def SafeYieldRule.missing_decorator (function_node : Node) : Except String Bool :=
  match SafeYieldRule.any_protects function_node.decoratorList with
  | .error e => .error e
  | .ok b => .ok (!b)

/-- Embeds `SafeYieldRule.has_return_with_value`: some descendant (via `ast.walk`)
of the enclosing function is a `return` carrying a value. -/
def SafeYieldRule.has_return_with_value (function_node : Node) : Bool :=
  (walkNode function_node []).any fun q =>
    match q.1 with
    | .Return (some _) _ _ => true
    | _ => false

/-- Embeds `SafeYieldRule.check_node`.  The first condition (mixed `return value`
and `yield`) returns before the decorator check is consulted. -/
def SafeYieldRule.check_node (node : Node) (anc : List Node) :
    Except String (Option String) :=
  match node with
  | .Yield _ _ _ | .YieldFrom _ _ _ =>
    match find_parent_function node anc with
    | none =>
      -- `ast.walk(None)` in `has_return_with_value` raises immediately;
      -- unreachable on parsed files, where `yield` implies a function.
      .error "AttributeError: 'NoneType' object has no attribute '_fields'"
    | some function_node =>
      if SafeYieldRule.has_return_with_value function_node then
        .ok (some "Do not mix `return value` and `yield` in the same function")
      else
        match SafeYieldRule.missing_decorator function_node with
        | .error e => .error e
        | .ok true =>
          .ok (some "Functions with `yield` should be decorated with a `generator_to_X` function")
        | .ok false => .ok none
  | _ => .ok none

/-- Embeds `TrailingCommaRule.check_node`. -/
def TrailingCommaRule.check_node (node : Node) (_anc : List Node) :
    Except String (Option String) :=
  let value? : Option Node :=
    match node with
    | .Assign _ v _ _ => some v
    | .AugAssign _ _ v _ _ => some v
    | .Expr v _ _ => some v
    | .Return v _ _ => v
    | .Yield v _ _ => v
    | _ => none
  match value? with
  | some (.Tuple elts _ _) =>
    if elts.length == 1 then .ok (some "Prefer `tuple` for single-element tuples")
    else .ok none
  | _ => .ok none

/-- String-literal-like expressions (`ast.Str`, `ast.JoinedStr`,
`ast.FormattedValue`). -/
def is_string_like : Node → Bool
  | .Str _ _ _ => true
  | .JoinedStr _ _ _ => true
  | .FormattedValue _ _ _ => true
  | _ => false

/-- Embeds `AddingStringsRule.check_node`. -/
def AddingStringsRule.check_node (node : Node) (_anc : List Node) :
    Except String (Option String) :=
  match node with
  | .BinOp left _ right _ _ =>
    if is_string_like left && is_string_like right then
      .ok (some "use parenthesis instead of addition for long strings")
    else .ok none
  | _ => .ok none

/-- Embeds `GeneratorExpressionRule.check_node`. -/
def GeneratorExpressionRule.check_node (node : Node) (_anc : List Node) :
    Except String (Option String) :=
  match node with
  | .Call (.Name id _ _) _ _ _ _ =>
    if ["map", "filter"].contains id then
      .ok (some s!"use generator expression over the {id} function")
    else .ok none
  | _ => .ok none

/-- Embeds `ForbidTestSuiteInheritanceRule.check_node`: the inner `for` returns on
the first base whose simple name starts with `Test`. -/
def ForbidTestSuiteInheritanceRule.check_node (node : Node) (_anc : List Node) :
    Except String (Option String) :=
  match node with
  | .ClassDef name bases _ _ _ =>
    if strStartsWith name "Test" then
      .ok (bases.findSome? fun base =>
        match base with
        | .Name bid _ _ =>
          if strStartsWith bid "Test" then
            some (s!"Inheriting the test suite {bid} may cause it to get run twice."
              ++ " Classes beginning with `Test` are interpreted by pytest as test suites.")
          else none
        | _ => none)
    else .ok none
  | _ => .ok none

/-- The `names` attribute shared by `ast.Import` and `ast.ImportFrom`. -/
def Node.importNames? : Node → Option (List PyAlias)
  | .Import names _ _ => some names
  | .ImportFrom _ names _ _ _ => some names
  | _ => none

/-- Embeds `ForbidImportTestSuiteRule.check_node`: the first alias whose effective
name (`asname or name`) starts with `Test` or `test_` produces the message. -/
def ForbidImportTestSuiteRule.check_node (node : Node) (_anc : List Node) :
    Except String (Option String) :=
  match node.importNames? with
  | some names =>
    .ok (names.findSome? fun alias0 =>
      let name := match alias0.asname with | some a => a | none => alias0.name
      ["Test", "test_"].findSome? fun pfx =>
        if strStartsWith name pfx then
          some (s!"Importing the test suite {name} may cause it to get run twice."
            ++ s!" Imported objects beginning with `{pfx}` are interpreted by pytest as test suites.")
        else none)
  | none => .ok none

/-- Embeds `SetComparisonRule.is_comprehended_set`. -/
def SetComparisonRule.is_comprehended_set : Node → Bool
  | .SetComp _ _ _ => true
  | .Call (.Name id _ _) args _ _ _ =>
    id == "set" && args.any fun arg =>
      match arg with
      | .GeneratorExp _ _ _ => true
      | .ListComp _ _ _ => true
      | _ => false
  | _ => false

/-- Embeds `SetComparisonRule.check_node`: scans each adjacent
(left, right, operator) triple of a chained comparison. -/
def SetComparisonRule.check_node (node : Node) (_anc : List Node) :
    Except String (Option String) :=
  match node with
  | .Compare left ops cs _ _ =>
    let comparators := left :: cs
    if comparators.length > 1 then
      .ok (((comparators.dropLast.zip comparators.tail).zip ops).findSome? fun t =>
        if (t.2 == PyCmpOp.LtE || t.2 == PyCmpOp.GtE)
            && (SetComparisonRule.is_comprehended_set t.1.1
              || SetComparisonRule.is_comprehended_set t.1.2) then
          some "use any() and all() over comprehended set comparisons"
        else none)
    else .ok none
  | _ => .ok none

/-- The message of `NoImportLibsigoptComputeRule`. -/
def no_import_error_msg : String :=
  "Should not import from libsigopt.compute, consider moving the class/method to libsigopt.aux or libsigopt.views"

/-- Embeds `NoImportLibsigoptComputeRule.check_node`.  For a plain `import`, only an
alias whose name is exactly `libsigopt.compute` matches; for an
`import-from`, `node.module.startswith(...)` is evaluated, which raises an
`AttributeError` when `module` is `None` (a relative import). -/
def NoImportLibsigoptComputeRule.check_node (node : Node) (_anc : List Node) :
    Except String (Option String) :=
  match node with
  | .Import names _ _ =>
    match names.findSome? fun name =>
        if name.name == "libsigopt.compute" then some no_import_error_msg else none with
    | some m => .ok (some m)
    | none => .ok none
  | .ImportFrom module _ _ _ _ =>
    match module with
    | none => .error "AttributeError: 'NoneType' object has no attribute 'startswith'"
    | some m =>
      if strStartsWith m "libsigopt.compute" then .ok (some no_import_error_msg)
      else .ok none
  | _ => .ok none

/-! ## Rule registry and engine -/

/-- A registered rule: its class name (used for registration and for matching
suppression directives) and its `check_node` operation. -/
structure Rule where
  name : String
  check : Node → List Node → Except String (Option String)

/-- The singleton instances, named as the Python classes. -/
def addingStringsRule : Rule := ⟨"AddingStringsRule", AddingStringsRule.check_node⟩

def avoidDatetimeNowRule : Rule := ⟨"AvoidDatetimeNowRule", AvoidDatetimeNowRule.check_node⟩

def forbidImportTestSuiteRule : Rule :=
  ⟨"ForbidImportTestSuiteRule", ForbidImportTestSuiteRule.check_node⟩

def forbidTestSuiteInheritanceRule : Rule :=
  ⟨"ForbidTestSuiteInheritanceRule", ForbidTestSuiteInheritanceRule.check_node⟩

def generatorExpressionRule : Rule :=
  ⟨"GeneratorExpressionRule", GeneratorExpressionRule.check_node⟩

def noImportLibsigoptComputeRule : Rule :=
  ⟨"NoImportLibsigoptComputeRule", NoImportLibsigoptComputeRule.check_node⟩

def protobufMethodsRule : Rule := ⟨"ProtobufMethodsRule", ProtobufMethodsRule.check_node⟩

def safeIteratorRule : Rule := ⟨"SafeIteratorRule", SafeIteratorRule.check_node⟩

def safeRecursiveRule : Rule := ⟨"SafeRecursiveRule", SafeRecursiveRule.check_node⟩

def safeYieldRule : Rule := ⟨"SafeYieldRule", SafeYieldRule.check_node⟩

def setComparisonRule : Rule := ⟨"SetComparisonRule", SetComparisonRule.check_node⟩

def trailingCommaRule : Rule := ⟨"TrailingCommaRule", TrailingCommaRule.check_node⟩

/-- Embeds `REGISTERED_RULES`: the global registry, keyed by class name, in the
registration order of the source. -/
def REGISTERED_RULES : List (String × Rule) :=
  [("AddingStringsRule", addingStringsRule),
   ("AvoidDatetimeNowRule", avoidDatetimeNowRule),
   ("ForbidImportTestSuiteRule", forbidImportTestSuiteRule),
   ("ForbidTestSuiteInheritanceRule", forbidTestSuiteInheritanceRule),
   ("GeneratorExpressionRule", generatorExpressionRule),
   ("NoImportLibsigoptComputeRule", noImportLibsigoptComputeRule),
   ("ProtobufMethodsRule", protobufMethodsRule),
   ("SafeIteratorRule", safeIteratorRule),
   ("SafeRecursiveRule", safeRecursiveRule),
   ("SafeYieldRule", safeYieldRule),
   ("SetComparisonRule", setComparisonRule),
   ("TrailingCommaRule", trailingCommaRule)]

/-- The suppression test of `get_problems`:
`hasattr(node, "lineno") and rule_name in disables and disables[rule_name] <= node.lineno`. -/
def suppressed (disables : String → Option Nat) (rule_name : String) (node : Node) : Bool :=
  match node.lineno?, disables rule_name with
  | some l, some start => start ≤ l
  | _, _ => false

/-- Inner loop of `get_problems`: apply each rule in order to one node,
skipping suppressed rules; a raising check aborts the run. -/
def checkRulesAt (node : Node) (anc : List Node) (disables : String → Option Nat) :
    List Rule → Except String (List (String × Node))
  | [] => .ok []
  | r :: rs =>
    if suppressed disables r.name node then checkRulesAt node anc disables rs
    else
      match r.check node anc with
      | .error e => .error e
      | .ok res =>
        match checkRulesAt node anc disables rs with
        | .error e => .error e
        | .ok rest =>
          .ok (match res with
            | some problem => (problem, node) :: rest
            | none => rest)

/-- Outer loop of `get_problems` over the walked tree. -/
def getProblemsList (ws : List (Node × List Node)) (rules : List Rule)
    (disables : String → Option Nat) : Except String (List (String × Node)) :=
  match ws with
  | [] => .ok []
  | (n, anc) :: rest =>
    match checkRulesAt n anc disables rules with
    | .error e => .error e
    | .ok here =>
      match getProblemsList rest rules disables with
      | .error e => .error e
      | .ok there => .ok (here ++ there)

/-- Embeds `get_problems`: every (node, rule) pair of the annotated tree, in
traversal order, yielding `(message, node)` findings. -/
def get_problems (tree : Node) (rules : List Rule) (disables : String → Option Nat) :
    Except String (List (String × Node)) :=
  getProblemsList (walkNode tree []) rules disables

/-! ## Sorting the report -/

/-- The first sort-key component, `p[1].lineno` (every node a rule fires on
is positioned; the module root, the only unpositioned kind, never carries a
finding). -/
def diagLine (p : String × Node) : Nat := (p.2.lineno?).getD 0

/-- The second sort-key component, `p[1].col_offset`. -/
def diagCol (p : String × Node) : Nat := (p.2.col_offset?).getD 0

/-- The ordering used to sort diagnostics: (line, column) lexicographically. -/
def diagLE (a b : String × Node) : Prop :=
  diagLine a < diagLine b ∨ (diagLine a = diagLine b ∧ diagCol a ≤ diagCol b)

instance : DecidableRel diagLE := fun a b =>
  inferInstanceAs
    (Decidable (diagLine a < diagLine b ∨ (diagLine a = diagLine b ∧ diagCol a ≤ diagCol b)))

instance : IsTotal (String × Node) diagLE :=
  ⟨by intro a b; unfold diagLE; omega⟩

instance : IsTrans (String × Node) diagLE :=
  ⟨by intro a b c hab hbc; unfold diagLE at *; omega⟩

/-- Embeds `sorted(get_problems(...), key=lambda p: (p[1].lineno, p[1].col_offset))`:
a stable sort of the findings by position. -/
def sort_problems (tree : Node) (rules : List Rule) (disables : String → Option Nat) :
    Except String (List (String × Node)) :=
  (get_problems tree rules disables).map (List.insertionSort diagLE)

/-- The claim's adjacency property of a report: for all adjacent diagnostics,
the line strictly increases, or the line is equal and the column does not
decrease. -/
def adjacentOrdered : List (String × Node) → Bool
  | [] => true
  | [_] => true
  | a :: b :: t => decide (diagLE a b) && adjacentOrdered (b :: t)

/-! ## Rule selection -/

/-- Embeds `prepare_rules`: instantiate the enabled rules in lexicographically
sorted name order (`sorted(enabled_rules)`); an unregistered name is a
`KeyError`, modelled as `none`. -/
def prepare_rules (enabled_rules : List String) : Option (List Rule) :=
  (List.insertionSort (fun a b : String => a ≤ b) enabled_rules).mapM
    fun rule_name => REGISTERED_RULES.lookup rule_name

/-- The per-file pipeline from an enabled-rule set to the sorted report. -/
def run_linter (enabled_rules : List String) (tree : Node) (disables : String → Option Nat) :
    Option (Except String (List (String × Node))) :=
  (prepare_rules enabled_rules).map fun rules => sort_problems tree rules disables

/-! ## The suppression tracker (token scan of `check_file`) -/

/-- Python token kinds, as produced by `tokenize`. -/
inductive TokType where
  | COMMENT | STRING | NAME | OP | NUMBER | NEWLINE | NL | INDENT | DEDENT
  | ENCODING | ENDMARKER
deriving DecidableEq, Repr

/-- One token: its kind, its text, and the line it starts on (`tk.start[0]`). -/
structure Tok where
  type : TokType
  string : String
  startLine : Nat
deriving DecidableEq, Repr

def disable_marker : String := "sigoptlint: disable="

def enable_marker : String := "sigoptlint: enable="

/-- The token-scanning loop of `check_file`: builds the rule-name →
first-suppressed-line map.  A comment containing the enable marker raises
`NotImplementedError`; a disable comment records the comment's start line for
each listed rule name, keeping an earlier entry
(`disables[rule_name] = disables.get(rule_name, lineno)`). -/
def buildDisables : List Tok → List (String × Nat) → Except String (List (String × Nat))
  | [], disables => .ok disables
  | tk :: rest, disables =>
    if tk.type == TokType.COMMENT then
      if containsSub tk.string enable_marker then
        .error "Re-enabling sigoptlint disables is not supported"
      else if containsSub tk.string disable_marker then
        let comment_suffix := afterFirst tk.string disable_marker
        let rule_names := (splitComma comment_suffix).map pyStrip
        let disables2 := rule_names.foldl
          (fun m rule_name =>
            if (m.lookup rule_name).isSome then m else m ++ [(rule_name, tk.startLine)])
          disables
        buildDisables rest disables2
      else buildDisables rest disables
    else buildDisables rest disables

/-- Embeds `check_file` after reading the source: scan the tokens for directives,
then walk the parsed tree and sort the findings.  An error raised by the
scan or by a rule aborts the file with no diagnostics. -/
def check_file_model (tokens : List Tok) (tree : Node) (rules : List Rule) :
    Except String (List (String × Node)) :=
  match buildDisables tokens [] with
  | .error e => .error e
  | .ok disables => sort_problems tree rules fun k => disables.lookup k

/-- Sequential processing of several files with one rule list, as `main`
does; used to state that no state is carried from one file to the next. -/
def process_files (files : List Node) (rules : List Rule) (disables : String → Option Nat) :
    List (Except String (List (String × Node))) :=
  files.map fun tree => get_problems tree rules disables

/-! ## Auxiliary definitions for the statements -/

/-- Embeds `isinstance(node, (ast.Yield, ast.YieldFrom))`: the node kinds
`SafeYieldRule` fires on. -/
def is_yield_node : Node → Bool
  | .Yield _ _ _ => true
  | .YieldFrom _ _ _ => true
  | _ => false

/-- Wraps a decorator expression in `k` levels of call syntax
(`d`, `d()`, `d()()`, ...). -/
def wrap_in_calls : Nat → Node → Node
  | 0, d => d
  | k + 1, d => .Call (wrap_in_calls k d) [] [] 1 0

/-! ## Concrete programs used by the witnesses and counterexamples

Each group embeds the parse tree of a small Python file. -/

/-- Parameters `(*args)` of a variadic function. -/
def c1_args : PyArguments := ⟨[], [], some "args", [], none⟩

/-- The self-recursive call `f()` inside `def f(*args): f()`. -/
def c1_call : Node := .Call (.Name "f" 2 9) [] [] 2 9

/-- The function `def f(*args): f()`. -/
def c1_fn : Node := .FunctionDef "f" c1_args [.Expr c1_call 2 2] [] 1 0

/-- The ancestor chain of `c1_call` inside `c1_fn`. -/
def c1_anc : List Node := [.Expr c1_call 2 2, c1_fn]

/-- The call `dt.datetime.now()` on line 1. -/
def c2_call1 : Node :=
  .Call (.Attribute (.Attribute (.Name "dt" 1 0) "datetime" 1 0) "now" 1 0) [] [] 1 0

/-- The call `dt.datetime.now()` on line 10. -/
def c2_call2 : Node :=
  .Call (.Attribute (.Attribute (.Name "dt" 10 0) "datetime" 10 0) "now" 10 0) [] [] 10 0

/-- A module with `dt.datetime.now()` on lines 1 and 10. -/
def c2_tree : Node := .Module [.Expr c2_call1 1 0, .Expr c2_call2 10 0]

/-- A suppression map marking `AvoidDatetimeNowRule` suppressed from line 5. -/
def c2_dis : String → Option Nat := fun k => if k == "AvoidDatetimeNowRule" then some 5 else none

/-- The message of `AvoidDatetimeNowRule` for a `now` call. -/
def c2_msg : String :=
  "Prefer `current_datetime` to `datetime.now` to ensure consistent use of UTC timezone"

/-- The diagnostics of `c2_tree` under the suppression `c2_dis`: only the
line-1 finding survives. -/
def c2_ds : List (String × Node) := [(c2_msg, c2_call1)]

/-- The line-1 call of `c2_tree` with its ancestor chain. -/
def c2_q : Node × List Node := (c2_call1, [.Expr c2_call1 1 0, c2_tree])

/-- The inner call `dt.datetime.utcnow()` at column 12 of line 1. -/
def c3_inner : Node :=
  .Call (.Attribute (.Attribute (.Name "dt" 1 12) "datetime" 1 12) "utcnow" 1 12) [] [] 1 12

/-- The outer call `x.MergeFrom(dt.datetime.utcnow())` at column 0 of line 1. -/
def c3_outer : Node := .Call (.Attribute (.Name "x" 1 0) "MergeFrom" 1 0) [c3_inner] [] 1 0

/-- A module whose single statement carries two findings on one line. -/
def c3_tree : Node := .Module [.Expr c3_outer 1 0]

/-- The sorted report of `c3_tree`: column 0 before column 12. -/
def c3_ds : List (String × Node) :=
  [("Do not call `MergeFrom` on protobufs - prefer the safer `MergeFrom` in zigopt.protobuf.lib`",
    c3_outer),
   ("Prefer `current_datetime` to `datetime.utcnow` to ensure consistent use of UTC timezone",
    c3_inner)]

/-- The `yield 1` of the mixed-return/yield scenario. -/
def c4_yield : Node := .Yield (some (.Constant 3 10)) 3 4

/-- An undecorated generator that also returns a value
(`def generator(): yield 1; return []`). -/
def c4_fn : Node :=
  .FunctionDef "generator" ⟨[], [], none, [], none⟩
    [.Expr c4_yield 3 4, .Return (some (.Constant 4 9)) 4 2] [] 1 0

/-- The ancestor chain of `c4_yield` inside `c4_fn`. -/
def c4_anc : List Node := [.Expr c4_yield 3 4, c4_fn]

/-- A relative import `from . import foo`, whose `module` is `None`. -/
def c5_import : Node := .ImportFrom none [⟨"foo", none⟩] 1 1 0

/-- A subscript decorator `@decorators[0]`: neither a name, an attribute,
nor a call. -/
def c5_decorator : Node := .Subscript (.Name "decorators" 1 1) (.Constant 1 12) 1 1

/-- A `yield` inside the function decorated with `c5_decorator`. -/
def c5_yield : Node := .Yield (some (.Constant 2 8)) 2 2

/-- The function carrying the subscript decorator and a `yield`. -/
def c5_fn : Node :=
  .FunctionDef "g" ⟨[], [], none, [], none⟩ [.Expr c5_yield 2 2] [c5_decorator] 1 0

/-- A string literal containing the enable marker. -/
def c6_str : String := "\"sigoptlint: enable=AvoidDatetimeNowRule\""

/-- The token stream of `x = "sigoptlint: enable=AvoidDatetimeNowRule"`:
the marker occurs only inside a STRING token. -/
def c6_tokens : List Tok := [⟨.NAME, "x", 1⟩, ⟨.OP, "=", 1⟩, ⟨.STRING, c6_str, 1⟩, ⟨.NEWLINE, "\n", 1⟩]

/-- The token stream of a file with the comment `# sigoptlint: enable=Foo`. -/
def c6w_tokens : List Tok := [⟨.COMMENT, "# sigoptlint: enable=Foo", 3⟩]

/-- A doubly-call-wrapped safe decorator `@generator_to_list()()`. -/
def c7_decorator : Node := .Call (.Call (.Name "generator_to_list" 1 1) [] [] 1 1) [] [] 1 1

/-- A `yield` inside the function decorated with `c7_decorator`. -/
def c7_yield : Node := .Yield (some (.Constant 3 8)) 3 2

/-- The generator decorated with the doubly-call-wrapped safe decorator. -/
def c7_fn : Node :=
  .FunctionDef "gen" ⟨[], [], none, [], none⟩ [.Expr c7_yield 3 2] [c7_decorator] 2 0

/-- A string concatenation `"a" + "b"`. -/
def c9_node : Node := .BinOp (.Str "a" 1 0) .Add (.Str "b" 1 11) 1 0

/-- A first file for the two-file purity statement. -/
def c9_tree1 : Node := .Module [.Expr c9_node 1 0]

/-- A second, distinct file for the two-file purity statement. -/
def c9_tree2 : Node := .Module []

/-- A module with a `map(int)` call, seen by `GeneratorExpressionRule`. -/
def c10_tree : Node := .Module [.Expr (.Call (.Name "map" 2 0) [.Name "int" 2 4] [] 2 0) 2 0]

/-! ## Helper lemmas -/

/-- One step of `get_problems` for a one-rule list: either the rule is
suppressed at this node and nothing is produced, or its check runs. -/
theorem checkRulesAt_single (n : Node) (anc : List Node) (disables : String → Option Nat)
    (r : Rule) :
    checkRulesAt n anc disables [r] =
      if suppressed disables r.name n then Except.ok []
      else
        match r.check n anc with
        | .error e => .error e
        | .ok (some problem) => .ok [(problem, n)]
        | .ok none => .ok [] := by
  by_cases hs : suppressed disables r.name n = true
  · simp [checkRulesAt, hs]
  · simp only [checkRulesAt, Bool.not_eq_true] at *
    simp [hs]
    cases hc : r.check n anc with
    | error e => rfl
    | ok res => cases res <;> rfl

/-- Suppression over the walked node list: with a rule suppressed from line
`L`, a successful run contains no finding at a line `≥ L`, and it keeps
every finding the rule produces at a line `< L`. -/
theorem getProblemsList_single_suppression (r : Rule) (disables : String → Option Nat) (L : Nat)
    (hL : disables r.name = some L) :
    ∀ (ws : List (Node × List Node)) (ds : List (String × Node)),
      getProblemsList ws [r] disables = Except.ok ds →
      ((ds.all fun p =>
          match p.2.lineno? with
          | some pl => decide (pl < L)
          | none => true) = true
       ∧ ∀ q ∈ ws, ∀ l m, q.1.lineno? = some l → l < L →
           r.check q.1 q.2 = Except.ok (some m) → (m, q.1) ∈ ds) := by
  intro ws
  induction ws with
  | nil =>
    intro ds h
    simp [getProblemsList] at h
    subst h
    exact ⟨rfl, by intro q hq; cases hq⟩
  | cons head rest ih =>
    obtain ⟨n, anc⟩ := head
    intro ds h
    rw [getProblemsList, checkRulesAt_single] at h
    cases hs : suppressed disables r.name n with
    | true =>
      rw [hs] at h
      rw [if_pos rfl] at h
      cases hrest : getProblemsList rest [r] disables with
      | error e => rw [hrest] at h; cases h
      | ok there =>
        rw [hrest] at h
        simp only [List.nil_append] at h
        injection h with h
        subst h
        obtain ⟨ih1, ih2⟩ := ih there hrest
        refine ⟨ih1, ?_⟩
        intro q hq l m hql hlt hchk
        rcases List.mem_cons.mp hq with hq0 | hq'
        · exfalso
          subst hq0
          unfold suppressed at hs
          rw [hql, hL] at hs
          simp at hs
          omega
        · exact ih2 q hq' l m hql hlt hchk
    | false =>
      rw [hs] at h
      rw [if_neg (by simp)] at h
      cases hc : r.check n anc with
      | error e => rw [hc] at h; cases h
      | ok res =>
        rw [hc] at h
        cases hrest : getProblemsList rest [r] disables with
        | error e =>
          rw [hrest] at h
          cases res <;> cases h
        | ok there =>
          rw [hrest] at h
          obtain ⟨ih1, ih2⟩ := ih there hrest
          cases res with
          | none =>
            simp only [List.nil_append] at h
            injection h with h
            subst h
            refine ⟨ih1, ?_⟩
            intro q hq l m hql hlt hchk
            rcases List.mem_cons.mp hq with hq0 | hq'
            · exfalso; subst hq0; rw [hc] at hchk; cases hchk
            · exact ih2 q hq' l m hql hlt hchk
          | some problem =>
            simp only [List.singleton_append] at h
            injection h with h
            subst h
            constructor
            · rw [List.all_cons]
              refine Bool.and_eq_true_iff.mpr ⟨?_, ih1⟩
              cases hln : n.lineno? with
              | none => rfl
              | some pl =>
                unfold suppressed at hs
                rw [hln, hL] at hs
                simp at hs
                simpa using hs
            · intro q hq l m hql hlt hchk
              rcases List.mem_cons.mp hq with hq0 | hq'
              · subst hq0
                rw [hc] at hchk
                injection hchk with hchk
                injection hchk with hchk
                subst hchk
                exact List.mem_cons_self _ _
              · exact List.mem_cons_of_mem _ (ih2 q hq' l m hql hlt hchk)

/-- A report sorted with respect to `diagLE` satisfies the adjacency check. -/
theorem sorted_adjacentOrdered (l : List (String × Node)) (hl : List.Sorted diagLE l) :
    adjacentOrdered l = true := by
  induction l with
  | nil => rfl
  | cons a t ih =>
    cases t with
    | nil => rfl
    | cons b t2 =>
      rw [List.sorted_cons] at hl
      obtain ⟨hrel, htail⟩ := hl
      have hab : diagLE a b := hrel b (List.mem_cons_self b t2)
      simp [adjacentOrdered, hab, ih htail]

/-- A token list containing a comment with the enable marker makes the scan
fail, whatever was accumulated before. -/
theorem buildDisables_enable_error (tokens : List Tok) :
    ∀ (acc : List (String × Nat)),
      (∃ tk ∈ tokens, tk.type = TokType.COMMENT ∧ containsSub tk.string enable_marker = true) →
      buildDisables tokens acc = Except.error "Re-enabling sigoptlint disables is not supported" := by
  induction tokens with
  | nil =>
    intro acc h
    rcases h with ⟨tk, htk, _⟩
    cases htk
  | cons tk rest ih =>
    intro acc h
    rcases h with ⟨t, ht, htype, hsub⟩
    rcases List.mem_cons.mp ht with rfl | hmem
    · simp [buildDisables, htype, hsub]
    · cases h1 : (tk.type == TokType.COMMENT) with
      | false =>
        simp only [buildDisables, h1, Bool.false_eq_true, if_false]
        exact ih _ ⟨t, hmem, htype, hsub⟩
      | true =>
        cases h2 : containsSub tk.string enable_marker with
        | true => simp [buildDisables, h1, h2]
        | false =>
          cases h3 : containsSub tk.string disable_marker with
          | true =>
            simp only [buildDisables, h1, h2, h3, Bool.false_eq_true, if_false, if_pos rfl]
            exact ih _ ⟨t, hmem, htype, hsub⟩
          | false =>
            simp only [buildDisables, h1, h2, h3, Bool.false_eq_true, if_false, if_pos rfl]
            exact ih _ ⟨t, hmem, htype, hsub⟩

/-- The first-match loop of the plain-import branch of
`NoImportLibsigoptComputeRule` is an existence check for an exact name. -/
theorem findSome?_import_msg (names : List PyAlias) :
    (names.findSome? fun name =>
        if name.name == "libsigopt.compute" then some no_import_error_msg else none)
      = if names.any (fun a => a.name == "libsigopt.compute") then some no_import_error_msg
        else none := by
  induction names with
  | nil => rfl
  | cons a rest ih =>
    rw [List.findSome?_cons, List.any_cons]
    cases h : (a.name == "libsigopt.compute") with
    | true => simp only [h]; rfl
    | false => simp only [h, Bool.false_or]; exact ih

/-! ## The claims -/

/-- C1, counterexample: on the direct self-recursive call `f()` inside
`def f(*args)`, `SafeRecursiveRule.check_node` does not return "no finding";
it raises the source's assertion, so the function is errored, not skipped
silently. -/
theorem safe_recursive_variadic_counterexample :
    SafeRecursiveRule.check_node c1_call c1_anc
      = Except.error "Linting for recursive calls with *args is not supported" := rfl

/-- C1, amended: for every call node that is a direct self-recursive call,
if the enclosing function has a variadic parameter, a keyword-variadic
parameter, or any keyword-only parameter, then `SafeRecursiveRule`'s check
raises an assertion error stating that the construct is unsupported, rather
than returning a finding. -/
theorem safe_recursive_variadic_asserts
    (func : Node) (args : List Node) (kws : List (Option String × Node)) (l c : Nat)
    (anc : List Node) (fargs : PyArguments)
    (hrec : is_recursive_call (.Call func args kws l c)
        (find_parent_function (.Call func args kws l c) anc) = true)
    (hargs : (find_parent_function (.Call func args kws l c) anc).bind Node.functionArgs?
        = some fargs)
    (hvar : fargs.vararg.isSome = true ∨ fargs.kwarg.isSome = true ∨ fargs.kwonlyargs ≠ []) :
    ∃ e, SafeRecursiveRule.check_node (.Call func args kws l c) anc = Except.error e := by
  simp only [SafeRecursiveRule.check_node, hrec, hargs, if_true]
  by_cases hv : fargs.vararg.isSome = true
  · exact ⟨"Linting for recursive calls with *args is not supported", by simp [hv]⟩
  · by_cases hk : fargs.kwarg.isSome = true
    · exact ⟨"Linting for recursive calls with **kwargs is not supported", by simp [hv, hk]⟩
    · have hko : fargs.kwonlyargs ≠ [] := by
        rcases hvar with h | h | h
        · exact absurd h hv
        · exact absurd h hk
        · exact h
      have hke : fargs.kwonlyargs.isEmpty = false := by
        cases hkl : fargs.kwonlyargs with
        | nil => exact absurd hkl hko
        | cons x xs => rfl
      exact ⟨"Linting for recursive calls with keyword-only args is not supported",
        by simp [hv, hk, hke]⟩

/-- C1, witness: the amended statement at the concrete program
`def f(*args): f()`. -/
theorem safe_recursive_variadic_asserts_witness :
    ∃ e, SafeRecursiveRule.check_node c1_call c1_anc = Except.error e :=
  safe_recursive_variadic_asserts (.Name "f" 2 9) [] [] 2 9 c1_anc c1_args
    (by decide) rfl (Or.inl rfl)

/-- C2: with rule `r` marked suppressed from line `L` in the suppression
map, a successful run of `get_problems` over a file drops every finding of
`r` at a node whose known line is `≥ L` (no directive can un-suppress it),
and keeps every finding of `r` at a node whose known line is `< L`. -/
theorem get_problems_suppression_monotonic
    (r : Rule) (tree : Node) (disables : String → Option Nat) (L : Nat)
    (ds : List (String × Node)) (q : Node × List Node) (l : Nat) (m : String)
    (hL : disables r.name = some L)
    (hrun : get_problems tree [r] disables = Except.ok ds)
    (hq : q ∈ walkNode tree []) (hql : q.1.lineno? = some l) (hlt : l < L)
    (hchk : r.check q.1 q.2 = Except.ok (some m)) :
    ((ds.all fun p =>
        match p.2.lineno? with
        | some pl => decide (pl < L)
        | none => true) = true)
    ∧ (m, q.1) ∈ ds := by
  obtain ⟨h1, h2⟩ :=
    getProblemsList_single_suppression r disables L hL (walkNode tree []) ds hrun
  exact ⟨h1, h2 q hq l m hql hlt hchk⟩

/-- C2, witness: `dt.datetime.now()` on lines 1 and 10 with
`AvoidDatetimeNowRule` suppressed from line 5: the report is exactly the
line-1 finding. -/
theorem get_problems_suppression_monotonic_witness :
    ((c2_ds.all fun p =>
        match p.2.lineno? with
        | some pl => decide (pl < 5)
        | none => true) = true)
    ∧ (c2_msg, c2_call1) ∈ c2_ds :=
  get_problems_suppression_monotonic avoidDatetimeNowRule c2_tree c2_dis 5 c2_ds c2_q 1 c2_msg
    (by decide)
    (by simp [get_problems, walkNode, walkList, walkOpt, walkKeywords, getProblemsList,
          checkRulesAt, suppressed, c2_tree, c2_call1, c2_call2, c2_dis, c2_ds, c2_msg,
          avoidDatetimeNowRule, AvoidDatetimeNowRule.check_node, is_prohibited_method_call,
          Node.lineno?]
        try rfl)
    (by simp [walkNode, walkList, walkOpt, walkKeywords, c2_tree, c2_call1, c2_call2, c2_q])
    rfl (by decide) rfl

/-- C3: the reported diagnostic sequence of a file is sorted by
(line, column): for all adjacent output diagnostics, the line strictly
increases, or the line is equal and the column does not decrease. -/
theorem check_file_output_sorted
    (tree : Node) (rules : List Rule) (disables : String → Option Nat)
    (ds : List (String × Node))
    (h : sort_problems tree rules disables = Except.ok ds) :
    adjacentOrdered ds = true := by
  unfold sort_problems at h
  cases hg : get_problems tree rules disables with
  | error e => rw [hg] at h; simp [Except.map] at h
  | ok ps =>
    rw [hg] at h
    simp only [Except.map, Except.ok.injEq] at h
    exact h ▸ sorted_adjacentOrdered _ (List.sorted_insertionSort diagLE ps)

/-- C3, witness: one line with two findings at columns 0 and 12 produces an
adjacency-ordered report. -/
theorem check_file_output_sorted_witness : adjacentOrdered c3_ds = true :=
  check_file_output_sorted c3_tree [avoidDatetimeNowRule, protobufMethodsRule] (fun _ => none)
    c3_ds
    (by
      have h1 : get_problems c3_tree [avoidDatetimeNowRule, protobufMethodsRule] (fun _ => none)
          = Except.ok c3_ds := by
        simp [get_problems, walkNode, walkList, walkOpt, walkKeywords,
          getProblemsList, checkRulesAt, suppressed, c3_tree, c3_outer, c3_inner, c3_ds,
          avoidDatetimeNowRule, AvoidDatetimeNowRule.check_node, protobufMethodsRule,
          ProtobufMethodsRule.check_node, is_prohibited_method_call, Node.lineno?]
        try rfl
        try decide
      unfold sort_problems
      rw [h1]
      rfl)

/-- C4: on a yield (or yield-from) node whose enclosing function contains a
`return value` and lacks every safety decorator, `SafeYieldRule`'s check
returns exactly the mixed-return/yield message: the first condition wins and
the missing-decorator message is short-circuited, never merged. -/
theorem safe_yield_mixed_return_wins (node : Node) (anc : List Node) (f : Node)
    (hy : is_yield_node node = true)
    (hpf : find_parent_function node anc = some f)
    (hret : SafeYieldRule.has_return_with_value f = true)
    (_hdec : SafeYieldRule.missing_decorator f = Except.ok true) :
    SafeYieldRule.check_node node anc
      = Except.ok (some "Do not mix `return value` and `yield` in the same function") := by
  cases node <;> simp [is_yield_node] at hy <;>
    simp [SafeYieldRule.check_node, hpf, hret]

/-- C4, witness: the spec's scenario `def generator(): yield 1; return []`
yields exactly the mixed message at the yield site. -/
theorem safe_yield_mixed_return_wins_witness :
    SafeYieldRule.check_node c4_yield c4_anc
      = Except.ok (some "Do not mix `return value` and `yield` in the same function") :=
  safe_yield_mixed_return_wins c4_yield c4_anc c4_fn rfl rfl
    (by simp [SafeYieldRule.has_return_with_value, walkNode, walkList, walkOpt, walkKeywords,
          c4_fn, c4_yield])
    rfl

/-- C5: contrary to the claim, two registered rules do raise on well-formed
nodes they do not recognize: `NoImportLibsigoptComputeRule` raises an
`AttributeError` on a relative import-from (whose `module` is `None`), and
`SafeYieldRule` fails an assertion on a decorator that is neither a name,
an attribute, nor a call (here a subscript). -/
theorem rules_raise_on_unrecognized_shapes :
    NoImportLibsigoptComputeRule.check_node c5_import []
      = Except.error "AttributeError: 'NoneType' object has no attribute 'startswith'"
    ∧ SafeYieldRule.check_node c5_yield [.Expr c5_yield 2 2, c5_fn]
      = Except.error "AssertionError: assert isinstance(node, ast.Call)" := by
  constructor
  · rfl
  · simp [SafeYieldRule.check_node, find_parent_function, is_function_def,
      SafeYieldRule.has_return_with_value, walkNode, walkList, walkOpt, walkKeywords,
      SafeYieldRule.missing_decorator, SafeYieldRule.any_protects,
      SafeYieldRule.get_decorator_name, Node.decoratorList, safe_yield_decorators,
      c5_fn, c5_yield, c5_decorator]

/-- C6, counterexample: a file containing the substring
`sigoptlint: enable=` only inside a string literal is processed without any
error, so the substring is not fatal "anywhere". -/
theorem enable_marker_outside_comment_not_fatal :
    containsSub c6_str enable_marker = true
    ∧ check_file_model c6_tokens (.Module []) [] = Except.ok [] := by
  constructor
  · decide
  · have hb : buildDisables c6_tokens [] = Except.ok [] := rfl
    simp [check_file_model, hb, sort_problems, get_problems, getProblemsList, walkNode,
      walkList, checkRulesAt]
    try rfl

/-- C6, amended: for every file whose tokenization contains a comment token
with the substring `sigoptlint: enable=`, processing the file fails with the
fatal `NotImplementedError` before any diagnostics are produced; the
substring inside non-comment tokens is ignored. -/
theorem enable_marker_in_comment_fatal (tokens : List Tok) (tree : Node) (rules : List Rule)
    (h : ∃ tk ∈ tokens, tk.type = TokType.COMMENT ∧ containsSub tk.string enable_marker = true) :
    check_file_model tokens tree rules
      = Except.error "Re-enabling sigoptlint disables is not supported" := by
  unfold check_file_model
  rw [buildDisables_enable_error tokens [] h]

/-- C6, witness: the amended statement at a file with the comment
`# sigoptlint: enable=Foo`. -/
theorem enable_marker_in_comment_fatal_witness :
    check_file_model c6w_tokens (.Module []) []
      = Except.error "Re-enabling sigoptlint disables is not supported" :=
  enable_marker_in_comment_fatal c6w_tokens (.Module []) []
    ⟨⟨TokType.COMMENT, "# sigoptlint: enable=Foo", 3⟩, List.Mem.head _, rfl, by decide⟩

/-- C7, counterexample: a decorator wrapped in two levels of call syntax
around the safe name `generator_to_list` is still matched (its simple name
is recovered and the yield produces no finding), contradicting the claim
that deeper nesting is treated as not matching any known safe decorator. -/
theorem decorator_double_call_counterexample :
    SafeYieldRule.get_decorator_name c7_decorator = Except.ok "generator_to_list"
    ∧ SafeYieldRule.check_node c7_yield [.Expr c7_yield 3 2, c7_fn] = Except.ok none := by
  constructor
  · rfl
  · simp [SafeYieldRule.check_node, find_parent_function, is_function_def,
      SafeYieldRule.has_return_with_value, walkNode, walkList, walkOpt, walkKeywords,
      SafeYieldRule.missing_decorator, SafeYieldRule.any_protects,
      SafeYieldRule.get_decorator_name, Node.decoratorList, safe_yield_decorators,
      c7_fn, c7_yield, c7_decorator]

/-- C7, amended: the safety-decorator name lookup unwraps arbitrarily many
levels of call syntax, not exactly one: a bare name yields its id, an
attribute access its attribute, and any number of call wrappers leave the
recovered simple name unchanged. -/
theorem get_decorator_name_unwraps_all_calls :
    (∀ (k : Nat) (d : Node),
      SafeYieldRule.get_decorator_name (wrap_in_calls k d) = SafeYieldRule.get_decorator_name d)
    ∧ (∀ (id : String) (l c : Nat), SafeYieldRule.get_decorator_name (.Name id l c) = .ok id)
    ∧ (∀ (v : Node) (a : String) (l c : Nat),
        SafeYieldRule.get_decorator_name (.Attribute v a l c) = .ok a) := by
  refine ⟨?_, fun id l c => rfl, fun v a l c => rfl⟩
  intro k
  induction k with
  | zero => intro d; rfl
  | succ k ih => intro d; exact ih d

/-- C8, counterexample: a plain `import libsigopt.compute.foo` - a module
path that starts with the forbidden path but is not equal to it - produces
no finding, contradicting the claim that submodule imports fire. -/
theorem import_submodule_no_finding :
    NoImportLibsigoptComputeRule.check_node (.Import [⟨"libsigopt.compute.foo", none⟩] 1 0) []
      = Except.ok none := rfl

/-- C8, amended: `NoImportLibsigoptComputeRule` fires on a plain import
exactly when some imported module name equals `libsigopt.compute`, and on an
import-from (with a module) exactly when the module path starts with
`libsigopt.compute`; a plain import of a strict submodule is not reported. -/
theorem no_import_libsigopt_compute_semantics :
    (∀ (names : List PyAlias) (l c : Nat) (anc : List Node),
      NoImportLibsigoptComputeRule.check_node (.Import names l c) anc
        = Except.ok (if names.any (fun a => a.name == "libsigopt.compute")
            then some no_import_error_msg else none))
    ∧ (∀ (m : String) (names : List PyAlias) (lvl l c : Nat) (anc : List Node),
      NoImportLibsigoptComputeRule.check_node (.ImportFrom (some m) names lvl l c) anc
        = Except.ok (if strStartsWith m "libsigopt.compute"
            then some no_import_error_msg else none)) := by
  constructor
  · intro names l c anc
    simp only [NoImportLibsigoptComputeRule.check_node]
    rw [findSome?_import_msg names]
    by_cases h : names.any (fun a => a.name == "libsigopt.compute") = true <;> simp [h]
  · intro m names lvl l c anc
    simp only [NoImportLibsigoptComputeRule.check_node]
    by_cases h : strStartsWith m "libsigopt.compute" = true <;> simp [h]

/-- C9: every registered rule's check is a pure, stateless function of the
node and its ancestor chain: calling it twice on the same input gives the
same result, and processing two files in sequence with the same rule
instance equals processing each file alone (no state is carried across
calls or files; the input tree, a value, is unchanged by construction). -/
theorem registered_rules_check_pure (p : String × Rule) (_hp : p ∈ REGISTERED_RULES)
    (node : Node) (anc : List Node) (t1 t2 : Node) (disables : String → Option Nat) :
    p.2.check node anc = p.2.check node anc
    ∧ process_files [t1, t2] [p.2] disables
        = [get_problems t1 [p.2] disables, get_problems t2 [p.2] disables] :=
  ⟨rfl, rfl⟩

/-- C9, witness: the purity statement at `AddingStringsRule` on a concrete
node and two concrete files. -/
theorem registered_rules_check_pure_witness :
    addingStringsRule.check c9_node [] = addingStringsRule.check c9_node []
    ∧ process_files [c9_tree1, c9_tree2] [addingStringsRule] (fun _ => none)
        = [get_problems c9_tree1 [addingStringsRule] (fun _ => none),
           get_problems c9_tree2 [addingStringsRule] (fun _ => none)] :=
  registered_rules_check_pure ("AddingStringsRule", addingStringsRule) (List.Mem.head _)
    c9_node [] c9_tree1 c9_tree2 (fun _ => none)

/-- C10: for a fixed file and suppression map, the linter's output is the
same for any two presentations of the enabled-rule set that are permutations
of each other: `prepare_rules` sorts the names, so rule instantiation order,
discovery order and the stable sort's tie-breaking are deterministic. -/
theorem run_linter_order_independent
    (enabled1 enabled2 : List String) (tree : Node) (disables : String → Option Nat)
    (h : enabled1.Perm enabled2) :
    run_linter enabled1 tree disables = run_linter enabled2 tree disables := by
  have hs : List.insertionSort (fun a b : String => a ≤ b) enabled1
      = List.insertionSort (fun a b : String => a ≤ b) enabled2 :=
    List.eq_of_perm_of_sorted
      ((List.perm_insertionSort _ enabled1).trans
        (h.trans (List.perm_insertionSort _ enabled2).symm))
      (List.sorted_insertionSort _ enabled1)
      (List.sorted_insertionSort _ enabled2)
  unfold run_linter prepare_rules
  rw [hs]

/-- C10, witness: two presentations of a three-rule set give the same
report on a file with a `map` call. -/
theorem run_linter_order_independent_witness :
    run_linter ["SafeYieldRule", "AddingStringsRule", "GeneratorExpressionRule"] c10_tree
        (fun _ => none)
      = run_linter ["GeneratorExpressionRule", "SafeYieldRule", "AddingStringsRule"] c10_tree
        (fun _ => none) :=
  run_linter_order_independent _ _ c10_tree (fun _ => none) (by decide)
